import Mathlib

/-!
Shallow embedding of `django_replicated/failover_router.py`.

The file models the mutable registry state shared by
`FailoverReplicationRouter` and its subclass
`MasterFailoverReplicationRouter`, the mutation operations
(`deactivate_slave`, `activate_slave`, `deactivate_master`,
`activate_master`, the promotion `master` setter), the per-tick checking
algorithm of `FailoverThread.check_slaves` / `check_master` /
`MasterFailoverThread.check_master`, the routing hooks
`db_for_write` / `db_for_read`, and the `start_thread` / `stop_thread`
lifecycle.

Modelling conventions:
- aliases are strings; the external liveness / read-only probes
  (`db_is_alive`, `db_is_read_only`) are parameters of type
  `String → Bool` (one fixed outcome function per tick);
- a Python call that raises an exception is modelled as an `Option`
  result of `none` (the partially mutated state at the raise point is
  discarded, as no claim depends on post-exception state);
- Python's `for x in lst` over a list that the body mutates in place is
  modelled exactly: the iterator reads index `i` of the *current* list
  each step and stops when `i` reaches the current length.  The loops
  below use a fuel argument equal to the initial length of the iterated
  list, which bounds the number of iterations (the index grows by one
  per step and the lists never grow during their own iteration), so the
  fuel never runs out before the index check stops the loop.
-/

namespace DjangoReplicated

/-- Django's default database alias; `ReplicationRouter.DEFAULT_DB_ALIAS`
(the statically configured default/primary alias). -/
def DEFAULT_DB_ALIAS : String := "default"

/-- Python truthiness of a master value: `None` and the empty string are
falsy, any other string is truthy. -/
def pyTruthy : Option String → Bool
  | none => false
  | some m => m ≠ ""

/-- The registry state of `FailoverReplicationRouter`.

For the base router, `master` models the `_master` attribute
(`None` or an alias).  The subclass `MasterFailoverReplicationRouter`
overrides the `master` property to store the alias in `MASTER`
(a plain string, initialised to the default alias); for that variant
`master = some MASTER` throughout (the only assignment that could make
it `None` raises before completing, see `masterSet`). -/
structure RouterState where
  master : Option String
  SLAVES : List String
  deactivated_slaves : List String
deriving DecidableEq, Repr

/-- `FailoverReplicationRouter.__init__`: `_master` is set to the default
alias and `deactivated_slaves` to `[]` (source lines 81-82).
Modelled from the spec: `SLAVES` is initialised by the parent
`ReplicationRouter` (not under `src/`) to the "statically configured
slave alias list" `c`. -/
def initFailover (c : List String) : RouterState :=
  ⟨some DEFAULT_DB_ALIAS, c, []⟩

/-- `MasterFailoverReplicationRouter.__init__`: additionally sets
`MASTER = DEFAULT_DB_ALIAS` (source line 193). -/
def initMasterFailover (c : List String) : RouterState :=
  ⟨some DEFAULT_DB_ALIAS, c, []⟩

/-- `FailoverReplicationRouter.deactivate_slave` (source lines 120-126):
append `a` to `deactivated_slaves` unless already present, then remove
`a` from `SLAVES` if present (`list.remove` drops the first occurrence). -/
def RouterState.deactivate_slave (s : RouterState) (a : String) : RouterState :=
  { s with
    deactivated_slaves :=
      if a ∈ s.deactivated_slaves then s.deactivated_slaves
      else s.deactivated_slaves ++ [a]
    SLAVES := if a ∈ s.SLAVES then s.SLAVES.erase a else s.SLAVES }

/-- `FailoverReplicationRouter.activate_slave` (source lines 128-134):
append `a` to `SLAVES` unless already present, then remove `a` from
`deactivated_slaves` if present. -/
def RouterState.activate_slave (s : RouterState) (a : String) : RouterState :=
  { s with
    SLAVES := if a ∈ s.SLAVES then s.SLAVES else s.SLAVES ++ [a]
    deactivated_slaves :=
      if a ∈ s.deactivated_slaves then s.deactivated_slaves.erase a
      else s.deactivated_slaves }

/-- `FailoverReplicationRouter.deactivate_master` (source lines 136-141),
base-router `master` property: set `master` to `None` if truthy. -/
def RouterState.deactivate_master (s : RouterState) : RouterState :=
  if pyTruthy s.master then { s with master := none } else s

/-- `FailoverReplicationRouter.activate_master` (source lines 143-147):
set `master` to the default alias if currently falsy. -/
def RouterState.activate_master (s : RouterState) : RouterState :=
  if pyTruthy s.master then s else { s with master := some DEFAULT_DB_ALIAS }

/-- `FailoverReplicationRouter.db_for_write` (source lines 149-152).
`r` is the alias chosen by the superclass `ReplicationRouter.db_for_write`
(an external collaborator, spec's `base_resolve_write`).  The Python body
is `if (r == self.DEFAULT_DB_ALIAS) and self.master is None: return None`
with no further statement, so the function returns `None` on the other
path as well (implicit fall-through). -/
def RouterState.db_for_write (s : RouterState) (r : Option String) : Option String :=
  if r = some DEFAULT_DB_ALIAS ∧ s.master = none then none
  else none

/-- `FailoverReplicationRouter.db_for_read` (source lines 154-157); the
body is identical to `db_for_write`. -/
def RouterState.db_for_read (s : RouterState) (r : Option String) : Option String :=
  if r = some DEFAULT_DB_ALIAS ∧ s.master = none then none
  else none

/-- First loop of `FailoverThread.check_slaves` (source lines 44-47):
`for alias in self.router.SLAVES: if not db_is_alive(alias):
deactivate_slave(alias)`.  The loop body mutates `SLAVES` in place, and
Python's list iterator then reads the shifted list, so the element after
a removed one is skipped; the index/fuel encoding reproduces this. -/
def checkSlavesLoop1 (alive : String → Bool) : Nat → Nat → RouterState → RouterState
  | 0, _, s => s
  | fuel + 1, i, s =>
    if h : i < s.SLAVES.length then
      checkSlavesLoop1 alive fuel (i + 1)
        (if alive (s.SLAVES.get ⟨i, h⟩) then s
         else s.deactivate_slave (s.SLAVES.get ⟨i, h⟩))
    else s

/-- Second loop of `FailoverThread.check_slaves` (source lines 49-52):
`for alias in self.router.deactivated_slaves: if db_is_alive(alias):
activate_slave(alias)`; same in-place-mutation iterator semantics. -/
def checkSlavesLoop2 (alive : String → Bool) : Nat → Nat → RouterState → RouterState
  | 0, _, s => s
  | fuel + 1, i, s =>
    if h : i < s.deactivated_slaves.length then
      checkSlavesLoop2 alive fuel (i + 1)
        (if alive (s.deactivated_slaves.get ⟨i, h⟩) then
           s.activate_slave (s.deactivated_slaves.get ⟨i, h⟩)
         else s)
    else s

/-- `FailoverThread.check_slaves` (source lines 38-52): run the two loops
in order. -/
def RouterState.check_slaves (s : RouterState) (alive : String → Bool) : RouterState :=
  let s1 := checkSlavesLoop1 alive s.SLAVES.length 0 s
  checkSlavesLoop2 alive s1.deactivated_slaves.length 0 s1

/-- `FailoverThread.check_master` (source lines 54-69), the liveness
variant: if `master` is truthy probe the default alias and deactivate the
master on failure; otherwise probe the default alias and activate the
master on success. -/
def RouterState.check_master (s : RouterState) (alive : String → Bool) : RouterState :=
  if pyTruthy s.master then
    if alive DEFAULT_DB_ALIAS then s else s.deactivate_master
  else
    if alive DEFAULT_DB_ALIAS then s.activate_master else s

/-- `FailoverThread.check` (source lines 33-36): one tick of the base
checker — `check_slaves`, then `check_master` when enabled. -/
def RouterState.check (s : RouterState) (alive : String → Bool) (docm : Bool) : RouterState :=
  let s1 := s.check_slaves alive
  if docm then s1.check_master alive else s1

/-- The `master` setter of `MasterFailoverReplicationRouter`
(source lines 199-212).  If the new value equals `MASTER` it is a no-op;
otherwise `SLAVES = list(set(SLAVES + [was_master]))`, `MASTER = alias`,
`SLAVES.remove(alias)`.  `list.remove` raises `ValueError` when `alias`
is absent (in particular when `alias` is `None`, since `SLAVES` holds
only strings); a raise is modelled as a `none` result.  CPython's
`set` iteration order is unspecified, so the deduplicated list is
modelled with the canonical `List.dedup`; every claim about this list is
stated via membership and counts, which are order-independent.
The branch where the stored `MASTER` is itself `None` is unreachable for
the promotion router (its `MASTER` starts as the default alias and the
only assignment towards `None` raises); it is modelled as an error. -/
def RouterState.masterSet (s : RouterState) (al : Option String) : Option RouterState :=
  if al = s.master then some s
  else
    match s.master with
    | some w =>
      match al with
      | some a =>
        if a ∈ (s.SLAVES ++ [w]).dedup then
          some ⟨some a, ((s.SLAVES ++ [w]).dedup).erase a, s.deactivated_slaves⟩
        else none
      | none => none
    | none => none

/-- `deactivate_master` as inherited by `MasterFailoverReplicationRouter`:
the `self.master = None` assignment dispatches to the overridden setter,
which raises `ValueError` before completing. -/
def RouterState.mDeactivateMaster (s : RouterState) : Option RouterState :=
  if pyTruthy s.master then s.masterSet none else some s

/-- `activate_master` as inherited by `MasterFailoverReplicationRouter`:
`self.master = DEFAULT_DB_ALIAS` dispatches to the overridden setter. -/
def RouterState.mActivateMaster (s : RouterState) : Option RouterState :=
  if pyTruthy s.master then some s else s.masterSet (some DEFAULT_DB_ALIAS)

/-- `MasterFailoverThread.check_master` (source lines 171-178): if the
probed master is read-only, scan `SLAVES` in order and promote the first
alias whose probe reports writable (the `break` follows the assignment
immediately, so the scan is over the pre-assignment list). -/
def RouterState.mCheckMaster (s : RouterState) (ro : String → Bool) : Option RouterState :=
  match s.master with
  | some w =>
    if ro w then
      match s.SLAVES.find? (fun x => !(ro x)) with
      | some a => s.masterSet (some a)
      | none => some s
    else some s
  | none => none

/-- One tick of `MasterFailoverThread` (`check`, with the overridden
`check_master`): `check_slaves`, then the promotion scan when enabled. -/
def RouterState.mCheck (s : RouterState) (alive ro : String → Bool) (docm : Bool) :
    Option RouterState :=
  let s1 := s.check_slaves alive
  if docm then s1.mCheckMaster ro else some s1

/-- Thread-lifecycle state of a `FailoverReplicationRouter`: the registry
plus the spawned checker threads.  `threads` holds one entry per checker
ever started (`true` once its stop event has been set by `join`);
`thread` models the `self.thread` attribute, an index of the most
recently spawned checker (`none` before any start). -/
structure ThreadedRouter where
  reg : RouterState
  threads : List Bool
  thread : Option Nat
deriving DecidableEq, Repr

/-- `FailoverReplicationRouter.start_thread` / `_start_thread`
(source lines 95-105): when `force`, `SLAVES` is nonempty, or
master-checking is enabled, unconditionally construct a new checker
thread, overwrite `self.thread`, and start it. -/
def ThreadedRouter.start_thread (s : ThreadedRouter) (force docm : Bool) : ThreadedRouter :=
  if force || !s.reg.SLAVES.isEmpty || docm then
    { s with threads := s.threads ++ [false], thread := some s.threads.length }
  else s

/-- `FailoverReplicationRouter.stop_thread` (source lines 107-110): when
`self.thread` is set, `join` it, which sets that thread's stop event and
waits out a bounded timeout.  Threads other than `self.thread` are not
signalled. -/
def ThreadedRouter.stop_thread (s : ThreadedRouter) : ThreadedRouter :=
  match s.thread with
  | none => s
  | some i => { s with threads := s.threads.set i true }

/-- Number of checker threads whose stop event has never been set, i.e.
checkers still running their loop. -/
def ThreadedRouter.runningCount (s : ThreadedRouter) : Nat :=
  (s.threads.filter (fun b => !b)).length

/-- States of the base `FailoverReplicationRouter` reachable from the
configured initial state by the registry operations the checker drives
(with arbitrary aliases, a superset of the checker's calls) and by whole
ticks with arbitrary per-tick probe outcomes. -/
inductive ReachBase (c : List String) : RouterState → Prop
  | init : ReachBase c (initFailover c)
  | dslave (s : RouterState) (a : String) :
      ReachBase c s → ReachBase c (s.deactivate_slave a)
  | aslave (s : RouterState) (a : String) :
      ReachBase c s → ReachBase c (s.activate_slave a)
  | dmaster (s : RouterState) : ReachBase c s → ReachBase c s.deactivate_master
  | amaster (s : RouterState) : ReachBase c s → ReachBase c s.activate_master
  | tick (s : RouterState) (alive : String → Bool) (docm : Bool) :
      ReachBase c s → ReachBase c (s.check alive docm)

/-- States of the `MasterFailoverReplicationRouter` reachable from the
configured initial state under the promotion checker's drive: slave
deactivation only for currently active aliases, reactivation only for
currently deactivated aliases, promotion only of a currently active
slave, plus whole ticks with arbitrary per-tick probe outcomes. -/
inductive ReachMaster (c : List String) : RouterState → Prop
  | init : ReachMaster c (initMasterFailover c)
  | dslave (s : RouterState) (a : String) :
      ReachMaster c s → a ∈ s.SLAVES → ReachMaster c (s.deactivate_slave a)
  | aslave (s : RouterState) (a : String) :
      ReachMaster c s → a ∈ s.deactivated_slaves → ReachMaster c (s.activate_slave a)
  | promote (s s' : RouterState) (a : String) :
      ReachMaster c s → a ∈ s.SLAVES → s.masterSet (some a) = some s' →
      ReachMaster c s'
  | tick (s s' : RouterState) (alive ro : String → Bool) (docm : Bool) :
      ReachMaster c s → s.mCheck alive ro docm = some s' → ReachMaster c s'

/-- Structural invariant of the slave pool: both lists are duplicate-free
and disjoint. -/
def PoolInv (s : RouterState) : Prop :=
  s.SLAVES.Nodup ∧ s.deactivated_slaves.Nodup ∧
    ∀ a, a ∈ s.SLAVES → a ∉ s.deactivated_slaves

/-- Invariant of the promotion variant: the pool invariant, and the
current master is a present alias that sits in neither list. -/
def MasterInv (s : RouterState) : Prop :=
  PoolInv s ∧ ∀ w, s.master = some w → w ∉ s.SLAVES ∧ w ∉ s.deactivated_slaves

/-! ### Preservation lemmas for the pool invariant -/

lemma poolInv_deactivate_slave {s : RouterState} (a : String) (h : PoolInv s) :
    PoolInv (s.deactivate_slave a) := by
  obtain ⟨h1, h2, h3⟩ := h
  refine ⟨?_, ?_, ?_⟩
  · simp only [RouterState.deactivate_slave]
    split
    · exact h1.erase a
    · exact h1
  · simp only [RouterState.deactivate_slave]
    split
    · exact h2
    · next hnd =>
      exact List.nodup_append.2
        ⟨h2, List.nodup_singleton a, fun x hx hxa => hnd ((List.mem_singleton.1 hxa) ▸ hx)⟩
  · intro x hx
    simp only [RouterState.deactivate_slave] at hx ⊢
    split at hx
    · next hin =>
      have hxS : x ∈ s.SLAVES := List.erase_subset _ _ hx
      have hxa : x ≠ a := ((h1.mem_erase_iff).1 hx).1
      split
      · exact h3 x hxS
      · intro hmem
        rcases List.mem_append.1 hmem with hm | hm
        · exact h3 x hxS hm
        · exact hxa (List.mem_singleton.1 hm)
    · next hnin =>
      split
      · exact h3 x hx
      · intro hmem
        rcases List.mem_append.1 hmem with hm | hm
        · exact h3 x hx hm
        · exact hnin (List.mem_singleton.1 hm ▸ hx)

lemma poolInv_activate_slave {s : RouterState} (a : String) (h : PoolInv s) :
    PoolInv (s.activate_slave a) := by
  obtain ⟨h1, h2, h3⟩ := h
  refine ⟨?_, ?_, ?_⟩
  · simp only [RouterState.activate_slave]
    split
    · exact h1
    · next hnd =>
      exact List.nodup_append.2
        ⟨h1, List.nodup_singleton a, fun x hx hxa => hnd ((List.mem_singleton.1 hxa) ▸ hx)⟩
  · simp only [RouterState.activate_slave]
    split
    · exact h2.erase a
    · exact h2
  · intro x hx
    simp only [RouterState.activate_slave] at hx ⊢
    split at hx
    · next hin =>
      split
      · exact fun hm => h3 x hx (List.erase_subset _ _ hm)
      · exact h3 x hx
    · next hnin =>
      rcases List.mem_append.1 hx with hm | hm
      · split
        · exact fun hc => h3 x hm (List.erase_subset _ _ hc)
        · exact h3 x hm
      · have hxa : x = a := List.mem_singleton.1 hm
        subst hxa
        split
        · next hain => exact fun hc => ((h2.mem_erase_iff).1 hc).1 rfl
        · next hanin => exact hanin

lemma poolInv_deactivate_master {s : RouterState} (h : PoolInv s) :
    PoolInv s.deactivate_master := by
  unfold RouterState.deactivate_master
  split <;> exact h

lemma poolInv_activate_master {s : RouterState} (h : PoolInv s) :
    PoolInv s.activate_master := by
  unfold RouterState.activate_master
  split <;> exact h

lemma poolInv_checkSlavesLoop1 (alive : String → Bool) (fuel : Nat) :
    ∀ (i : Nat) (s : RouterState), PoolInv s → PoolInv (checkSlavesLoop1 alive fuel i s) := by
  induction fuel with
  | zero => intro i s h; simpa [checkSlavesLoop1] using h
  | succ n ih =>
    intro i s h
    rw [checkSlavesLoop1]
    split
    · split
      · exact ih _ _ h
      · exact ih _ _ (poolInv_deactivate_slave _ h)
    · exact h

lemma poolInv_checkSlavesLoop2 (alive : String → Bool) (fuel : Nat) :
    ∀ (i : Nat) (s : RouterState), PoolInv s → PoolInv (checkSlavesLoop2 alive fuel i s) := by
  induction fuel with
  | zero => intro i s h; simpa [checkSlavesLoop2] using h
  | succ n ih =>
    intro i s h
    rw [checkSlavesLoop2]
    split
    · split
      · exact ih _ _ (poolInv_activate_slave _ h)
      · exact ih _ _ h
    · exact h

lemma poolInv_check_slaves {s : RouterState} (alive : String → Bool) (h : PoolInv s) :
    PoolInv (s.check_slaves alive) :=
  poolInv_checkSlavesLoop2 alive _ 0 _ (poolInv_checkSlavesLoop1 alive _ 0 s h)

lemma poolInv_check_master {s : RouterState} (alive : String → Bool) (h : PoolInv s) :
    PoolInv (s.check_master alive) := by
  unfold RouterState.check_master
  split
  · split
    · exact h
    · exact poolInv_deactivate_master h
  · split
    · exact poolInv_activate_master h
    · exact h

lemma poolInv_check {s : RouterState} (alive : String → Bool) (docm : Bool) (h : PoolInv s) :
    PoolInv (s.check alive docm) := by
  unfold RouterState.check
  split
  · exact poolInv_check_master alive (poolInv_check_slaves alive h)
  · exact poolInv_check_slaves alive h

/-- Every state of the base failover router reachable from a
duplicate-free configured slave list satisfies the pool invariant. -/
lemma reachBase_poolInv {c : List String} (hc : c.Nodup) {s : RouterState}
    (h : ReachBase c s) : PoolInv s := by
  induction h with
  | init => exact ⟨hc, List.nodup_nil, by simp [initFailover]⟩
  | dslave s a _ ih => exact poolInv_deactivate_slave a ih
  | aslave s a _ ih => exact poolInv_activate_slave a ih
  | dmaster s _ ih => exact poolInv_deactivate_master ih
  | amaster s _ ih => exact poolInv_activate_master ih
  | tick s alive docm _ ih => exact poolInv_check alive docm ih

/-! ### Preservation lemmas for the promotion-variant invariant -/

lemma mem_dedup_append {l : List String} {w x : String}
    (hx : x ∈ (l ++ [w]).dedup) : x ∈ l ∨ x = w := by
  rcases List.mem_append.1 (List.mem_dedup.1 hx) with h | h
  · exact Or.inl h
  · exact Or.inr (List.mem_singleton.1 h)

lemma masterInv_deactivate_slave {s : RouterState} {a : String}
    (ha : a ∈ s.SLAVES) (h : MasterInv s) : MasterInv (s.deactivate_slave a) := by
  obtain ⟨hp, hm⟩ := h
  refine ⟨poolInv_deactivate_slave a hp, ?_⟩
  intro w hw
  have hw' : s.master = some w := hw
  obtain ⟨hw1, hw2⟩ := hm w hw'
  have haw : a ≠ w := fun he => hw1 (he ▸ ha)
  constructor
  · intro hc
    simp only [RouterState.deactivate_slave] at hc
    by_cases hin : a ∈ s.SLAVES
    · rw [if_pos hin] at hc
      exact hw1 (List.erase_subset _ _ hc)
    · rw [if_neg hin] at hc
      exact hw1 hc
  · intro hc
    simp only [RouterState.deactivate_slave] at hc
    by_cases hin : a ∈ s.deactivated_slaves
    · rw [if_pos hin] at hc
      exact hw2 hc
    · rw [if_neg hin] at hc
      rcases List.mem_append.1 hc with hm' | hm'
      · exact hw2 hm'
      · exact haw (List.mem_singleton.1 hm').symm

lemma masterInv_activate_slave {s : RouterState} {a : String}
    (ha : a ∈ s.deactivated_slaves) (h : MasterInv s) : MasterInv (s.activate_slave a) := by
  obtain ⟨hp, hm⟩ := h
  refine ⟨poolInv_activate_slave a hp, ?_⟩
  intro w hw
  have hw' : s.master = some w := hw
  obtain ⟨hw1, hw2⟩ := hm w hw'
  have haw : a ≠ w := fun he => hw2 (he ▸ ha)
  constructor
  · intro hc
    simp only [RouterState.activate_slave] at hc
    by_cases hin : a ∈ s.SLAVES
    · rw [if_pos hin] at hc
      exact hw1 hc
    · rw [if_neg hin] at hc
      rcases List.mem_append.1 hc with hm' | hm'
      · exact hw1 hm'
      · exact haw (List.mem_singleton.1 hm').symm
  · intro hc
    simp only [RouterState.activate_slave] at hc
    by_cases hin : a ∈ s.deactivated_slaves
    · rw [if_pos hin] at hc
      exact hw2 (List.erase_subset _ _ hc)
    · rw [if_neg hin] at hc
      exact hw2 hc

lemma masterInv_masterSet {s s' : RouterState} {al : Option String}
    (h : MasterInv s) (hs : s.masterSet al = some s') : MasterInv s' := by
  unfold RouterState.masterSet at hs
  by_cases heq : al = s.master
  · rw [if_pos heq] at hs
    cases hs
    exact h
  · rw [if_neg heq] at hs
    cases hmc : s.master with
    | none => rw [hmc] at hs; exact absurd hs (by simp)
    | some w =>
      rw [hmc] at hs
      cases al with
      | none => exact absurd hs (by simp)
      | some a =>
        simp only [] at hs
        split at hs
        · next hain =>
          cases hs
          obtain ⟨⟨h1, h2, h3⟩, hm⟩ := h
          obtain ⟨hw1, hw2⟩ := hm w hmc
          have hnd1 : ((s.SLAVES ++ [w]).dedup).Nodup := List.nodup_dedup _
          refine ⟨⟨hnd1.erase a, h2, ?_⟩, ?_⟩
          · intro x hx
            rcases mem_dedup_append (List.erase_subset _ _ hx) with hxS | hxw
            · exact h3 x hxS
            · exact hxw ▸ hw2
          · intro v hv
            cases hv
            constructor
            · exact fun hc => ((hnd1.mem_erase_iff).1 hc).1 rfl
            · rcases mem_dedup_append hain with hS | hw'
              · exact h3 a hS
              · exact hw' ▸ hw2
        · exact absurd hs (by simp)

lemma masterInv_checkSlavesLoop1 (alive : String → Bool) (fuel : Nat) :
    ∀ (i : Nat) (s : RouterState), MasterInv s → MasterInv (checkSlavesLoop1 alive fuel i s) := by
  induction fuel with
  | zero => intro i s h; simpa [checkSlavesLoop1] using h
  | succ n ih =>
    intro i s h
    rw [checkSlavesLoop1]
    split
    · next hi =>
      split
      · exact ih _ _ h
      · exact ih _ _ (masterInv_deactivate_slave (List.get_mem s.SLAVES i hi) h)
    · exact h

lemma masterInv_checkSlavesLoop2 (alive : String → Bool) (fuel : Nat) :
    ∀ (i : Nat) (s : RouterState), MasterInv s → MasterInv (checkSlavesLoop2 alive fuel i s) := by
  induction fuel with
  | zero => intro i s h; simpa [checkSlavesLoop2] using h
  | succ n ih =>
    intro i s h
    rw [checkSlavesLoop2]
    split
    · next hi =>
      split
      · exact ih _ _ (masterInv_activate_slave (List.get_mem s.deactivated_slaves i hi) h)
      · exact ih _ _ h
    · exact h

lemma masterInv_check_slaves {s : RouterState} (alive : String → Bool) (h : MasterInv s) :
    MasterInv (s.check_slaves alive) :=
  masterInv_checkSlavesLoop2 alive _ 0 _ (masterInv_checkSlavesLoop1 alive _ 0 s h)

lemma masterInv_mCheckMaster {s s' : RouterState} {ro : String → Bool}
    (h : MasterInv s) (hs : s.mCheckMaster ro = some s') : MasterInv s' := by
  unfold RouterState.mCheckMaster at hs
  cases hmc : s.master with
  | none => rw [hmc] at hs; exact absurd hs (by simp)
  | some w =>
    rw [hmc] at hs
    simp only [] at hs
    split at hs
    · split at hs
      · exact masterInv_masterSet h hs
      · cases hs; exact h
    · cases hs; exact h

lemma masterInv_mCheck {s s' : RouterState} {alive ro : String → Bool} {docm : Bool}
    (h : MasterInv s) (hs : s.mCheck alive ro docm = some s') : MasterInv s' := by
  unfold RouterState.mCheck at hs
  split at hs
  · exact masterInv_mCheckMaster (masterInv_check_slaves alive h) hs
  · cases hs; exact masterInv_check_slaves alive h

/-- Every state of the promotion router reachable from a well-formed
configuration (duplicate-free slave list that does not contain the
default primary alias) satisfies the promotion-variant invariant. -/
lemma reachMaster_masterInv {c : List String} (hc1 : c.Nodup)
    (hc2 : DEFAULT_DB_ALIAS ∉ c) {s : RouterState} (h : ReachMaster c s) : MasterInv s := by
  induction h with
  | init =>
    refine ⟨⟨hc1, List.nodup_nil, by simp [initMasterFailover]⟩, ?_⟩
    intro w hw
    cases hw
    exact ⟨hc2, by simp [initMasterFailover]⟩
  | dslave s a _ ha ih => exact masterInv_deactivate_slave ha ih
  | aslave s a _ ha ih => exact masterInv_activate_slave ha ih
  | promote s s' a _ ha hs ih => exact masterInv_masterSet ih hs
  | tick s s' alive ro docm _ hs ih => exact masterInv_mCheck ih hs

/-- `deactivate_slave` is the identity on a state that already records the
alias as deactivated and not active. -/
lemma deactivate_slave_eq_self {s : RouterState} {a : String}
    (h1 : a ∈ s.deactivated_slaves) (h2 : a ∉ s.SLAVES) : s.deactivate_slave a = s := by
  cases s with
  | mk m sl dl => simp [RouterState.deactivate_slave, h1, h2] at *

/-- After `deactivate_slave a`, the alias `a` is recorded as deactivated. -/
lemma mem_deactivated_of_deactivate_slave (s : RouterState) (a : String) :
    a ∈ (s.deactivate_slave a).deactivated_slaves := by
  simp only [RouterState.deactivate_slave]
  by_cases hin : a ∈ s.deactivated_slaves
  · rw [if_pos hin]; exact hin
  · rw [if_neg hin]
    exact List.mem_append.2 (Or.inr (List.mem_singleton.2 rfl))

/-- After `deactivate_slave a` on a duplicate-free slave list, the alias
`a` is no longer active. -/
lemma not_mem_slaves_of_deactivate_slave {s : RouterState} (a : String)
    (hnd : s.SLAVES.Nodup) : a ∉ (s.deactivate_slave a).SLAVES := by
  simp only [RouterState.deactivate_slave]
  by_cases hin : a ∈ s.SLAVES
  · rw [if_pos hin]
    exact fun hc => ((hnd.mem_erase_iff).1 hc).1 rfl
  · rw [if_neg hin]; exact hin

/-! ### Claim theorems -/

/-- C1: starting from a well-formed configured initial state (a
duplicate-free slave list not containing the default primary alias), in
both the liveness-failover router and the promotion router, every state
reachable by checker-driven registry operations and whole ticks — for
every sequence of per-tick probe outcomes — keeps `SLAVES` and
`deactivated_slaves` disjoint: no alias is in both lists. -/
theorem active_and_deactivated_slaves_disjoint (c : List String) (hc1 : c.Nodup)
    (hc2 : DEFAULT_DB_ALIAS ∉ c) :
    (∀ s, ReachBase c s → ∀ a, a ∈ s.SLAVES → a ∉ s.deactivated_slaves) ∧
    (∀ s, ReachMaster c s → ∀ a, a ∈ s.SLAVES → a ∉ s.deactivated_slaves) := by
  constructor
  · intro s hs a ha
    exact (reachBase_poolInv hc1 hs).2.2 a ha
  · intro s hs a ha
    exact ((reachMaster_masterInv hc1 hc2 hs).1).2.2 a ha

theorem active_and_deactivated_slaves_disjoint_witness :
    List.Nodup ["s1", "s2"] ∧ DEFAULT_DB_ALIAS ∉ ["s1", "s2"] ∧
    (∀ s, ReachMaster ["s1", "s2"] s → ∀ a, a ∈ s.SLAVES → a ∉ s.deactivated_slaves) :=
  ⟨by decide, by decide,
    (active_and_deactivated_slaves_disjoint ["s1", "s2"] (by decide) (by decide)).2⟩

/-- C2: when `master` is the `None` sentinel, `db_for_write` and
`db_for_read` return `None` ("unavailable") whenever the base policy's
choice equals the default primary alias. -/
theorem db_unavailable_when_master_none (s : RouterState) (r : Option String)
    (h1 : s.master = none) (h2 : r = some DEFAULT_DB_ALIAS) :
    s.db_for_write r = none ∧ s.db_for_read r = none := by
  subst h2
  exact ⟨by simp [RouterState.db_for_write, h1], by simp [RouterState.db_for_read, h1]⟩

theorem db_unavailable_when_master_none_witness :
    (⟨none, ["s1"], []⟩ : RouterState).master = none ∧
    (⟨none, ["s1"], []⟩ : RouterState).db_for_write (some DEFAULT_DB_ALIAS) = none ∧
    (⟨none, ["s1"], []⟩ : RouterState).db_for_read (some DEFAULT_DB_ALIAS) = none :=
  ⟨rfl,
    (db_unavailable_when_master_none ⟨none, ["s1"], []⟩ (some DEFAULT_DB_ALIAS) rfl rfl).1,
    (db_unavailable_when_master_none ⟨none, ["s1"], []⟩ (some DEFAULT_DB_ALIAS) rfl rfl).2⟩

/-- C3 (evaluation at the failing input): with the master available
(`some "default"`) and the base policy choosing the slave alias `"s1"`,
`db_for_write` and `db_for_read` return `None` instead of passing the
base policy's choice `"s1"` through: the Python methods have no `return`
statement on the fall-through path, so they return `None` for every
input. -/
theorem db_for_write_drops_base_choice :
    (⟨some DEFAULT_DB_ALIAS, ["s1"], []⟩ : RouterState).db_for_write (some "s1") = none ∧
    (⟨some DEFAULT_DB_ALIAS, ["s1"], []⟩ : RouterState).db_for_read (some "s1") = none := by
  exact ⟨rfl, rfl⟩

/-- C4 (evaluation at the failing input): `check_slaves` mutates the list
it is iterating, and Python's list iterator then skips the element that
shifted into the removed element's slot.  With both configured slaves
failing, `"s2"` is never probed and stays in `SLAVES`; dually, with
`deactivated_slaves = ["a", "b"]` and every probe succeeding, `"b"` is
never probed and stays deactivated. -/
theorem check_slaves_skips_after_removal :
    ((initFailover ["s1", "s2"]).check_slaves (fun _ => false) =
      ⟨some DEFAULT_DB_ALIAS, ["s2"], ["s1"]⟩) ∧
    ((⟨some DEFAULT_DB_ALIAS, [], ["a", "b"]⟩ : RouterState).check_slaves (fun _ => true) =
      ⟨some DEFAULT_DB_ALIAS, ["a"], ["b"]⟩) := by
  exact ⟨by decide, by decide⟩

/-- C5: on every reachable state of the base failover router (from a
duplicate-free configured slave list), `deactivate_slave` is idempotent:
calling it twice with the same alias yields exactly the state of calling
it once. -/
theorem deactivate_slave_idempotent (c : List String) (s : RouterState) (a : String)
    (hc : c.Nodup) (hr : ReachBase c s) :
    (s.deactivate_slave a).deactivate_slave a = s.deactivate_slave a := by
  obtain ⟨h1, _h2, _h3⟩ := reachBase_poolInv hc hr
  exact deactivate_slave_eq_self (mem_deactivated_of_deactivate_slave s a)
    (not_mem_slaves_of_deactivate_slave a h1)

theorem deactivate_slave_idempotent_witness :
    List.Nodup ["s1"] ∧
    ((initFailover ["s1"]).deactivate_slave "s1").deactivate_slave "s1" =
      (initFailover ["s1"]).deactivate_slave "s1" :=
  ⟨by decide,
    deactivate_slave_idempotent ["s1"] (initFailover ["s1"]) "s1" (by decide) ReachBase.init⟩

/-- C6 (counterexample): the promotion `master` setter, called with the
alias `"s2"` — which is neither the current master `"default"` nor among
the active slaves `["s1"]` — does not return normally: `SLAVES.remove`
raises `ValueError` (modelled as a `none` result), refuting "always
return normally ... with any alias". -/
theorem masterSet_raises_on_unknown_alias :
    (⟨some DEFAULT_DB_ALIAS, ["s1"], []⟩ : RouterState).masterSet (some "s2") = none := by
  decide

/-- C6 (amended): `deactivate_slave`, `activate_slave` and the base
router's `deactivate_master` / `activate_master` are total (their list
removals are guarded), but the promotion master-swap returns normally
exactly when the new alias equals the current master or is one of the
active slaves; moreover the promotion variant's `deactivate_master`,
which assigns `None` through the swap, raises whenever the current
master is a non-empty alias.  Under the checker's call discipline (the
promoted alias is drawn from `SLAVES`) no operation raises. -/
theorem masterSet_normal_return_iff (s : RouterState) (w a : String)
    (h : s.master = some w) :
    ((s.masterSet (some a)).isSome ↔ (a = w ∨ a ∈ s.SLAVES)) ∧
    (w ≠ "" → s.mDeactivateMaster = none) := by
  constructor
  · unfold RouterState.masterSet
    rw [h]
    by_cases heq : a = w
    · subst heq
      simp
    · have hne : ¬(some a = some w) := by simp [heq]
      rw [if_neg hne]
      dsimp only
      by_cases hmem : a ∈ (s.SLAVES ++ [w]).dedup
      · rw [if_pos hmem]
        simp only [Option.isSome_some, true_iff]
        rcases mem_dedup_append hmem with hS | hw'
        · exact Or.inr hS
        · exact absurd hw' heq
      · rw [if_neg hmem]
        constructor
        · intro hfalse
          exact absurd hfalse (by simp)
        · intro hor
          rcases hor with h' | h'
          · exact absurd h' heq
          · exact absurd (List.mem_dedup.2 (List.mem_append.2 (Or.inl h'))) hmem
  · intro hw
    unfold RouterState.mDeactivateMaster
    rw [h]
    have ht : pyTruthy (some w) = true := by simp [pyTruthy, hw]
    rw [if_pos ht]
    unfold RouterState.masterSet
    rw [h]
    have hne : ¬((none : Option String) = some w) := by simp
    rw [if_neg hne]

theorem masterSet_normal_return_iff_witness :
    (⟨some DEFAULT_DB_ALIAS, ["s1"], []⟩ : RouterState).master = some "default" ∧
    (((⟨some DEFAULT_DB_ALIAS, ["s1"], []⟩ : RouterState).masterSet (some "s1")).isSome ↔
      ("s1" = "default" ∨ "s1" ∈ ["s1"])) ∧
    ("default" ≠ "" →
      (⟨some DEFAULT_DB_ALIAS, ["s1"], []⟩ : RouterState).mDeactivateMaster = none) :=
  ⟨rfl, masterSet_normal_return_iff ⟨some DEFAULT_DB_ALIAS, ["s1"], []⟩ "default" "s1" rfl⟩

/-- C7: in the promotion variant, on a reachable state whose master `w`
is probed read-only, the checker scans `SLAVES` in insertion order; if
the first writable alias is `a`, the promotion succeeds and afterwards
`a` is the new master, the previous master `w` is in `SLAVES` exactly
once (duplicates collapsed), and `a` is absent from `SLAVES`. -/
theorem promotion_swaps_master (c : List String) (s : RouterState) (ro : String → Bool)
    (w a : String) (hc1 : c.Nodup) (hc2 : DEFAULT_DB_ALIAS ∉ c)
    (hr : ReachMaster c s) (hm : s.master = some w) (hro : ro w = true)
    (hfind : s.SLAVES.find? (fun x => !(ro x)) = some a) :
    ∃ s', s.mCheckMaster ro = some s' ∧ s'.master = some a ∧
      w ∈ s'.SLAVES ∧ s'.SLAVES.count w = 1 ∧ a ∉ s'.SLAVES := by
  obtain ⟨⟨h1, h2, h3⟩, hmm⟩ := reachMaster_masterInv hc1 hc2 hr
  obtain ⟨hw1, hw2⟩ := hmm w hm
  have haS : a ∈ s.SLAVES := List.mem_of_find?_eq_some hfind
  have haw : a ≠ w := fun he => hw1 (he ▸ haS)
  have hain : a ∈ (s.SLAVES ++ [w]).dedup :=
    List.mem_dedup.2 (List.mem_append.2 (Or.inl haS))
  have hnd1 : ((s.SLAVES ++ [w]).dedup).Nodup := List.nodup_dedup _
  have hwin : w ∈ (s.SLAVES ++ [w]).dedup :=
    List.mem_dedup.2 (List.mem_append.2 (Or.inr (List.mem_singleton.2 rfl)))
  refine ⟨⟨some a, ((s.SLAVES ++ [w]).dedup).erase a, s.deactivated_slaves⟩, ?_, rfl, ?_, ?_, ?_⟩
  · unfold RouterState.mCheckMaster
    rw [hm]
    simp only [hro, if_true, hfind]
    unfold RouterState.masterSet
    rw [hm]
    have hne : ¬(some a = some w) := by simp [haw]
    rw [if_neg hne]
    simp only [hain, if_pos]
  · exact (List.mem_erase_of_ne haw.symm).2 hwin
  · rw [List.count_erase_of_ne haw.symm]
    exact List.count_eq_one_of_mem hnd1 hwin
  · exact fun hc => ((hnd1.mem_erase_iff).1 hc).1 rfl

theorem promotion_swaps_master_witness :
    (initMasterFailover ["s1", "s2"]).master = some "default" ∧
    ((fun x => x != "s1") "default") = true ∧
    ["s1", "s2"].find? (fun x => !((fun y => y != "s1") x)) = some "s1" ∧
    (∃ s', (initMasterFailover ["s1", "s2"]).mCheckMaster (fun x => x != "s1") = some s' ∧
      s'.master = some "s1" ∧ "default" ∈ s'.SLAVES ∧
      s'.SLAVES.count "default" = 1 ∧ "s1" ∉ s'.SLAVES) :=
  ⟨rfl, by decide, by decide,
    promotion_swaps_master ["s1", "s2"] (initMasterFailover ["s1", "s2"])
      (fun x => x != "s1") "default" "s1" (by decide) (by decide)
      ReachMaster.init rfl (by decide) (by decide)⟩

/-- C8: when the new alias handed to the promotion `master` setter equals
the current master, the setter is a no-op: it returns normally and the
state is exactly unchanged. -/
theorem promotion_self_is_noop (s : RouterState) (w : String) (h : s.master = some w) :
    s.masterSet (some w) = some s := by
  unfold RouterState.masterSet
  rw [h, if_pos rfl]

theorem promotion_self_is_noop_witness :
    (⟨some "m1", ["s1"], []⟩ : RouterState).master = some "m1" ∧
    (⟨some "m1", ["s1"], []⟩ : RouterState).masterSet (some "m1") =
      some ⟨some "m1", ["s1"], []⟩ :=
  ⟨rfl, promotion_self_is_noop ⟨some "m1", ["s1"], []⟩ "m1" rfl⟩

/-- C9 (counterexample): invoking `start_thread` a second time while a
checker is already running does not yield the same state as invoking it
once — a second checker thread is spawned and the first keeps running —
refuting the claimed idempotence of `start`. -/
theorem start_thread_not_idempotent :
    ((⟨initFailover ["s1"], [], none⟩ : ThreadedRouter).start_thread false false).start_thread
        false false ≠
      (⟨initFailover ["s1"], [], none⟩ : ThreadedRouter).start_thread false false := by
  decide

/-- C9 (amended): `stop_thread` is idempotent and is a no-op (returning
normally) when no checker was ever started, and `start_thread` leaves
the registry contents unchanged; but `start_thread` is not idempotent:
when its spawn condition holds, a second invocation leaves two running
checker threads. -/
theorem lifecycle_stop_idempotent_start_spawns (s : ThreadedRouter) (f d : Bool) :
    s.stop_thread.stop_thread = s.stop_thread ∧
    (s.thread = none → s.stop_thread = s) ∧
    (s.start_thread f d).reg = s.reg ∧
    ((f || !s.reg.SLAVES.isEmpty || d) = true →
      ((s.start_thread f d).start_thread f d).runningCount = s.runningCount + 2) := by
  refine ⟨?_, ?_, ?_, ?_⟩
  · cases h : s.thread with
    | none => simp [ThreadedRouter.stop_thread, h]
    | some i => simp [ThreadedRouter.stop_thread, h, List.set_set]
  · intro h
    simp [ThreadedRouter.stop_thread, h]
  · unfold ThreadedRouter.start_thread
    split <;> rfl
  · intro h
    simp only [ThreadedRouter.start_thread, h, if_true]
    simp [ThreadedRouter.runningCount, List.filter_append]

theorem lifecycle_stop_idempotent_start_spawns_witness :
    (⟨initFailover ["s1"], [], none⟩ : ThreadedRouter).stop_thread =
      ⟨initFailover ["s1"], [], none⟩ ∧
    (((⟨initFailover ["s1"], [], none⟩ : ThreadedRouter).start_thread false
        false).start_thread false false).runningCount = 2 :=
  ⟨(lifecycle_stop_idempotent_start_spawns ⟨initFailover ["s1"], [], none⟩ false false).2.1 rfl,
    by
      have h := (lifecycle_stop_idempotent_start_spawns ⟨initFailover ["s1"], [], none⟩
        false false).2.2.2 (by decide)
      simpa using h⟩

/-- C10: `deactivate_slave` records any alias — including one outside the
configured slave list — in `deactivated_slaves`; a subsequent tick's
reactivation loop then probes it and, on success, activates it as a
slave ("x" below is not in the configured list `["s1"]`, yet ends up in
`SLAVES`). -/
theorem deactivate_slave_accepts_foreign_alias :
    (∀ (s : RouterState) (a : String), a ∈ (s.deactivate_slave a).deactivated_slaves) ∧
    ("x" ∉ ["s1"] ∧
      "x" ∈ (((initFailover ["s1"]).deactivate_slave "x").check_slaves
        (fun _ => true)).SLAVES) := by
  constructor
  · exact mem_deactivated_of_deactivate_slave
  · exact ⟨by decide, by decide⟩

end DjangoReplicated
